import Mathlib

/-!
Verification of the Human Footprint pipeline (HF_tasks.py, HF_spatial.py,
HF_scores.py, HF_layers.py) against its natural-language specification.

The Python code is shallowly embedded: numpy float values are modelled as
rationals, numpy 2-D arrays as lists of lists with Python indexing
semantics (negative indices wrap, indices past the upper bound raise
IndexError, modelled as Option), and module-level state (the bins_ntl
memo) as explicitly threaded state.
-/

namespace HF

/-! ## Bins scoring (SCORING.scores_from_bins, HF_tasks.py lines 683-694)

A bin is ((lo, hi), score).  Upper bounds may be np.inf (WithTop).
The sentinel 65535 is the value GDAL proximity rasters hold where
proximity is empty.
-/

abbrev Bin := (ℚ × WithTop ℚ) × ℚ

/-- One bin matches when lo <= value <= hi, as in the source condition
i[0][0] <= value <= i[0][1]. -/
def bin_matches (b : Bin) (value : ℚ) : Bool :=
  decide (b.1.1 ≤ value) && decide ((value : WithTop ℚ) ≤ b.1.2)

/-- The for-loop of scores_from_bins: return the score of the first bin
whose closed interval contains the value, else 0. -/
def scores_lookup : List Bin → ℚ → ℚ
  | [], _ => 0
  | b :: rest, value => if bin_matches b value then b.2 else scores_lookup rest value

/-- SCORING.scores_from_bins: the sentinel 65535 scores 0, otherwise the
first bin (in listed order) whose closed interval contains the value gives
the score; no match scores 0. -/
def scores_from_bins (scores : List Bin) (value : ℚ) : ℚ :=
  if value == 65535 then 0 else scores_lookup scores value

/-- GHF template entry GHS_BUILT_scores (HF_scores.py lines 215-222). -/
def GHS_BUILT_scores_bins : List Bin :=
  [((0, (10 : ℚ)), 0), ((10, (25 : ℚ)), 6), ((25, (100 : ℚ)), 10)]

/-- GHF template entry railways_scores (HF_scores.py lines 66-71). -/
def railways_scores_bins : List Bin :=
  [((0, (90 : ℚ)), 8), ((90, (⊤ : WithTop ℚ)), 0)]

/-! ## Multitemporal variant selection (begin_HF.__init__, HF_tasks.py
lines 96-116)

A dated variant is (layer name, year, scoring method name), listed in
registration order as in multitemporal_layers[dataset]["datasets"].
-/

structure Variant where
  name : String
  year : Int
  scoring : String
deriving DecidableEq, Repr

/-- The selection loop: closer_year starts at 1000000 and each variant
whose distance to the requested year is <= the distance of the held
closer_year replaces the held layer (HF_tasks.py lines 100-105). -/
def closest_variant (datasets : List Variant) (year : Int) : Option Variant × Int :=
  datasets.foldl
    (fun acc d => if (d.year - year).natAbs ≤ (acc.2 - year).natAbs then (some d, d.year) else acc)
    (none, 1000000)

/-- The scoring method used for a multitemporal layer: always that of the
first registered variant, datasets[0] (HF_tasks.py lines 109-110). -/
def multitemporal_scoring (datasets : List Variant) : Option String :=
  datasets.head?.map Variant.scoring

/-! ## Dispatch on the scoring-method name

PREPARING.__init__ (HF_tasks.py lines 301-394) and SCORING.__init__
(lines 482-519) dispatch with chained membership tests on the method
name.  An unmatched name falls to an else branch that only prints a
message; there is no exception and no exit, the constructor keeps
running.  Note that the membership test for river_scores in PREPARING is
written against a bare string, so Python tests substring containment.
-/

/-- Containment of one character list in another. -/
def py_in_chars (needle : List Char) : List Char → Bool
  | [] => needle.isEmpty
  | c :: t => needle.isPrefixOf (c :: t) || py_in_chars needle t

/-- Python x in y for strings: x is a substring of y. -/
def py_in_str (needle hay : String) : Bool :=
  py_in_chars needle.toList hay.toList

inductive PrepAction where
  | warp
  | warpFcbkSubset
  | proximity
  | categorical
  | riverPixels
  | notFound
deriving DecidableEq, Repr

/-- The if/elif chain of PREPARING.__init__ selecting the preparation
strategy from the scoring-method name. -/
def preparing_dispatch (m : String) : PrepAction :=
  if m ∈ ["pop_scores_INEC", "GHS_BUILT_scores", "ntl_VIIRS_scores",
          "ntl_VIIRS_gas_flares_scores", "ntl_Harmonized_scores",
          "luc_ESA_scores", "bui_ESA_scores",
          "luc_MAAE_RS_scores", "bui_MAAE_RS_scores"] then .warp
  else if m ∈ ["pop_scores_Fcbk"] then .warpFcbkSubset
  else if m ∈ ["settlement_scores", "road_scores_l1", "road_scores_l2",
               "road_scores_l3", "road_scores_l4", "railways_scores",
               "line_infrastructure_scores", "reservoir_scores",
               "pollution_scores", "plantations_scores", "urban_scores",
               "bins_6_.15_scores", "bins_6_.05_scores",
               "bins_8_.05_scores", "bins_8_.5_scores"] then .proximity
  else if m ∈ ["luc_MAAE_scores", "bui_MAAE_scores", "veg_MINAM_scores",
               "mining_MINAM_scores", "agr_MINAGRI_scores"] then .categorical
  else if py_in_str m "river_scores" then .riverPixels
  else .notFound

inductive PrepOutcome where
  | skipped
  | completed (a : PrepAction)
deriving DecidableEq, Repr

/-- PREPARING.__init__ control flow: if the prepared target exists the
constructor skips; otherwise it runs the dispatched strategy (possibly
the print-and-continue notFound branch) and then falls through to the
patch and compress steps; in every case the constructor returns
normally. -/
def PREPARING_run (m : String) (pressure_exists : Bool) : PrepOutcome :=
  if pressure_exists then .skipped else .completed (preparing_dispatch m)

inductive ScoreFunc where
  | bins
  | category
  | remain
  | log10
  | exp
  | notFound
deriving DecidableEq, Repr

/-- The if/elif chain of SCORING.__init__ selecting the scoring function
from the scoring-method name. -/
def scoring_dispatch (m : String) : ScoreFunc :=
  if m ∈ ["plantations_scores", "GHS_BUILT_scores", "ntl_VIIRS_scores",
          "ntl_Harmonized_scores", "railways_scores",
          "bins_6_.05_scores", "bins_6_.15_scores",
          "bins_8_.5_scores", "bins_8_.05_scores",
          "line_infrastructure_scores", "ntl_VIIRS_gas_flares_scores",
          "urban_scores"] then .bins
  else if m ∈ ["luc_ESA_scores", "bui_ESA_scores", "agr_MINAGRI_scores",
               "luc_MAAE_RS_scores", "bui_MAAE_RS_scores"] then .category
  else if m ∈ ["bui_MAAE_scores", "luc_MAAE_scores", "veg_MINAM_scores",
               "mining_MINAM_scores"] then .remain
  else if m ∈ ["pop_scores_INEC"] then .log10
  else if m ∈ ["road_scores_l1", "road_scores_l2", "road_scores_l3",
               "road_scores_l4", "river_scores", "settlement_scores",
               "reservoir_scores", "pollution_scores",
               "pop_scores_Fcbk"] then .exp
  else .notFound

/-! ## Exponential scoring (SCORING.exp_function, HF_tasks.py lines 653-668)

The numeric parameters come from the GHF template (HF_scores.py); the
units string comes from the layer catalog (HF_layers.py).  np.exp is
modelled by Real.exp; the Python float value is modelled as a real.
A units string outside the two handled families makes the Python
function fall through and return None, modelled as Option.none.
-/

structure ExpParams where
  max_score : ℝ
  max_score_exp : ℝ
  min_score_exp : ℝ
  max_dist : ℝ

open Classical in
/-- SCORING.exp_function. -/
noncomputable def exp_function (p : ExpParams) (units : String) (value : ℝ) : Option ℝ :=
  if value > p.max_dist then some 0
  else if value = 0 then some p.max_score
  else if units = "meters" ∨ units = "hab/pixel" then
    some (p.max_score_exp * Real.exp (-(value / 1000)) + p.min_score_exp)
  else if units = "kilometers" then
    some (p.max_score_exp * Real.exp (-value) + p.min_score_exp)
  else none

/-- The eleven exp-type entries of the GHF scoring template
(HF_scores.py): road_scores_l1 to l4, river_scores, settlement_scores,
reservoir_scores, pollution_scores, pop_scores_Fcbk_l1 to l3. -/
def GHF_exp_entries : List ExpParams :=
  [⟨8, 4, 0, 15000⟩, ⟨6, 3, 0, 7500⟩, ⟨4, 2, 0, 3000⟩, ⟨2, 1, 0, 30⟩,
   ⟨4, 4, 0, 10000⟩, ⟨6, 3, 0, 3000⟩, ⟨4, 1, 0, 500⟩, ⟨8, 3, 0, 1000⟩,
   ⟨10, 5, 0, 15000⟩, ⟨6, 3, 0, 7500⟩, ⟨4, 2, 0, 3000⟩]

/-! ## Equal-frequency quantile bins (SCORING.get_bins, HF_tasks.py
lines 724-755, and the bins_ntl module-global memo at lines 572-579)
-/

/-- Insert a value into an ascending list. -/
def insert_sorted (x : ℚ) : List ℚ → List ℚ
  | [] => [x]
  | y :: t => if x ≤ y then x :: y :: t else y :: insert_sorted x t

/-- Ascending sort, as np.quantile sorts its data internally. -/
def np_sort : List ℚ → List ℚ
  | [] => []
  | x :: t => insert_sorted x (np_sort t)

/-- np.quantile with interpolation equal to midpoint: with the data
sorted ascending and virtual index h = q * (n - 1), the result is
(a[floor h] + a[ceil h]) / 2. -/
def np_quantile_midpoint (l : List ℚ) (q : ℚ) : ℚ :=
  let s := np_sort l
  let h : ℚ := q * ((s.length : ℚ) - 1)
  (s.getD ⌊h⌋.toNat 0 + s.getD ⌈h⌉.toNat 0) / 2

/-- The three np.delete filters of get_bins: drop values below the
threshold, equal to zero, or equal to nodata. -/
def get_bins_filter (array : List ℚ) (min_th nd : ℚ) : List ℚ :=
  ((array.filter (fun x => !(decide (x < min_th)))).filter
    (fun x => !(x == 0))).filter (fun x => !(x == nd))

/-- SCORING.get_bins: quantile cut points at 0,10,...,100 percent of the
filtered values, ten bins scored 1 to 10, and the last upper bound
overwritten with np.inf. -/
def get_bins (array : List ℚ) (min_th nd : ℚ) : List Bin :=
  let ar_f := get_bins_filter array min_th nd
  let limits := (List.range 11).map (fun i => np_quantile_midpoint ar_f ((i : ℚ) / 10))
  let scores := (List.range 10).map
    (fun i => ((limits.getD i 0, (limits.getD (i + 1) 0 : WithTop ℚ)), ((i : ℚ) + 1)))
  scores.set 9 ((limits.getD 9 0, (⊤ : WithTop ℚ)), 10)

/-- The module-global bins_ntl memo (HF_tasks.py lines 576-579): the
bins are computed only when the global is not yet set; afterwards every
raster reuses the stored bins. -/
def bins_for_raster (cache : Option (List Bin)) (array : List ℚ) (min_th nd : ℚ) :
    List Bin × Option (List Bin) :=
  match cache with
  | some b => (b, some b)
  | none => let b := get_bins array min_th nd; (b, some b)

/-- Scoring a sequence of rasters with the equal-frequency method in one
process: the memo is threaded through, and the list of bin tables
actually used per raster is returned. -/
def scoring_session (rasters : List (List ℚ)) (min_th nd : ℚ) : List (List Bin) :=
  (rasters.foldl
    (fun acc a =>
      let r := bins_for_raster acc.1 a min_th nd
      (r.2, acc.2 ++ [r.1]))
    ((none : Option (List Bin)), ([] : List (List Bin)))).2

/-! ## Pressure combination (combineRasters, HF_spatial.py lines 1300-1329)

Each scored raster is opened, masked with np.ma.masked_equal at its
nodata value, and folded with np.maximum.  A masked pixel is modelled as
Option.none.  Binary ufuncs on numpy masked arrays take the union of the
input masks: the result is masked where either operand is masked, and
holds the elementwise maximum where both are valid.
-/

/-- One pixel of np.maximum on masked operands. -/
def ma_max_pixel : Option ℚ → Option ℚ → Option ℚ
  | some x, some y => some (max x y)
  | _, _ => none

/-- np.maximum of two masked rows. -/
def np_maximum_ma (a b : List (Option ℚ)) : List (Option ℚ) :=
  List.zipWith ma_max_pixel a b

/-- np.ma.masked_equal: mask the pixels equal to the nodata value. -/
def masked_equal (raw : List ℚ) (nodata : ℚ) : List (Option ℚ) :=
  raw.map (fun v => if v == nodata then none else some v)

/-- combineRasters over the scored datasets of one pressure, each given
as (raw pixel row, nodata value).  With no datasets num stays 0 and
nothing is produced. -/
def combineRasters (rasters : List (List ℚ × ℚ)) : Option (List (Option ℚ)) :=
  match rasters with
  | [] => none
  | r :: rest =>
    some (rest.foldl (fun acc s => np_maximum_ma acc (masked_equal s.1 s.2))
      (masked_equal r.1 r.2))

/-! ## Skip-if-exists checkpointing (PREPARING lines 292-298, SCORING
lines 469-478, combineRasters lines 1300-1345 of their files)

The filesystem is an association list from paths to artifact contents.
PREPARING and SCORING test os.path.isfile on their target and skip all
work when it exists.  combineRasters has no such test: whenever it has
at least one dataset it recomputes and rewrites its target.  Each stage
returns the new filesystem and whether it performed its work.
-/

def isfile (fs : List (String × α)) (p : String) : Bool :=
  fs.any (fun e => e.1 == p)

def fwrite (fs : List (String × α)) (p : String) (v : α) : List (String × α) :=
  (fs.filter (fun e => !(e.1 == p))) ++ [(p, v)]

/-- PREPARING.__init__ checkpointing: skip when the prepared target
exists, otherwise produce it. -/
def preparing_stage (fs : List (String × α)) (target : String) (content : α) :
    List (String × α) × Bool :=
  if isfile fs target then (fs, false) else (fwrite fs target content, true)

/-- SCORING.__init__ checkpointing: skip when the scored target exists,
otherwise produce it. -/
def scoring_stage (fs : List (String × α)) (target : String) (content : α) :
    List (String × α) × Bool :=
  if isfile fs target then (fs, false) else (fwrite fs target content, true)

/-- combineRasters checkpointing: there is no existence test; with at
least one dataset the combination is recomputed and the target
rewritten. -/
def combine_stage (fs : List (String × α)) (target : String) (content : α)
    (layers : List String) : List (String × α) × Bool :=
  if layers.isEmpty then (fs, false) else (fwrite fs target content, true)

/-! ## Distance propagation engine (grow_distance_rivers, HF_spatial.py
lines 973-1066, and its call in create_proximity_raster_from_pixels,
lines 1199-1231)

Grids are lists of rows.  Indexing follows numpy: a negative index i
with -len <= i selects entry len + i (so index -1 selects the last row
or column), an index past either bound raises IndexError; the source
catches IndexError around neighbour reads and treats the neighbour as
not eligible.  Travel distances are floats, modelled as rationals.
-/

abbrev Grid (α : Type) := List (List α)

/-- Resolve one Python index against a length. -/
def pyIdx (len : Nat) (i : Int) : Option Nat :=
  if 0 ≤ i then (if i < (len : Int) then some i.toNat else none)
  else (if -i ≤ (len : Int) then some (len - (-i).toNat) else none)

/-- Python 2-D read a[i, j]; none models IndexError. -/
def pyGet (g : Grid α) (i j : Int) : Option α :=
  match pyIdx g.length i with
  | none => none
  | some r =>
    match g.get? r with
    | none => none
    | some row =>
      match pyIdx row.length j with
      | none => none
      | some c => row.get? c

/-- Python 2-D write a[i, j] = v (all writes in the source are at
indices previously validated, so the out-of-range fallback is inert). -/
def pySet (g : Grid α) (i j : Int) (v : α) : Grid α :=
  match pyIdx g.length i with
  | none => g
  | some r =>
    match g.get? r with
    | none => g
    | some row =>
      match pyIdx row.length j with
      | none => g
      | some c => g.set r (row.set c v)

/-- A rectangular grid: H rows, each of width W. -/
def RectGrid (g : Grid α) (H W : Nat) : Prop :=
  g.length = H ∧ ∀ row ∈ g, row.length = W

instance (g : Grid α) (H W : Nat) : Decidable (RectGrid g H W) := by
  unfold RectGrid
  infer_instance

/-- The eight neighbours of (i, j) in the insertion order of the neighbs
dict; true marks a direct neighbour, false a diagonal one. -/
def neighbs (i j : Int) : List ((Int × Int) × Bool) :=
  [((i + 1, j), true), ((i - 1, j), true), ((i, j + 1), true), ((i, j - 1), true),
   ((i + 1, j + 1), false), ((i + 1, j - 1), false),
   ((i - 1, j + 1), false), ((i - 1, j - 1), false)]

/-- Conditions 1 and 3 on a neighbour: it must be a river pixel and not
yet tracked; an IndexError on either read makes both conditions false. -/
def neighbOK (river track : Grid Int) (n : Int × Int) : Bool :=
  match pyGet river n.1 n.2, pyGet track n.1 n.2 with
  | some rv, some tv => rv == 1 && tv != -2
  | _, _ => false

/-- Condition 2 on a frontier pixel: its travel value is under the
maximum navigable distance. -/
def travelLt (travel : Grid ℚ) (i j : Int) (distnav : ℚ) : Bool :=
  match pyGet travel i j with
  | some t => decide (t < distnav)
  | none => false

/-- The reviewed_list dict: for each frontier pixel under the maximum
distance, the river neighbours not yet tracked, tagged direct or
diagonal. -/
def buildReviewed (distnav : ℚ) (river track : Grid Int) (travel : Grid ℚ)
    (cluster : List (Int × Int)) : List ((Int × Int) × List ((Int × Int) × Bool)) :=
  cluster.filterMap (fun o =>
    if travelLt travel o.1 o.2 distnav then
      some (o, (neighbs o.1 o.2).filter (fun n => neighbOK river track n.1))
    else none)

/-- The edge cost applied to a neighbour: diredist for a direct
neighbour, diagdist for a diagonal one. -/
def edge_cost (diredist diagdist : ℚ) (isDirect : Bool) : ℚ :=
  if isDirect then diredist else diagdist

/-- The value written into a non-source neighbour pixel, from the code
at HF_spatial.py lines 1046-1058: newdist = original + dist; a pixel
with no distance yet (-1) receives dist alone when the frontier pixel
holds the seed value 1 and original + dist otherwise; a pixel with a
distance keeps it unless the proposal is smaller. -/
def assign_step (dist original olddist : ℚ) : ℚ :=
  let newdist := original + dist
  if olddist == -1 then (if original == 1 then dist else newdist)
  else if olddist > newdist then newdist
  else olddist

/-- The assignment loop over reviewed_list: mark the pixel tracked, then
give it travel value 1 when it is itself close to settlements, else the
assign_step value. -/
def applyAssign (close : Grid Int) (diredist diagdist : ℚ)
    (reviewed : List ((Int × Int) × List ((Int × Int) × Bool)))
    (st : Grid Int × Grid ℚ) : Grid Int × Grid ℚ :=
  reviewed.foldl (fun st e =>
    e.2.foldl (fun st pn =>
      let track' := pySet st.1 pn.1.1 pn.1.2 (-2)
      if pyGet close pn.1.1 pn.1.2 == some (-1) then
        (track', pySet st.2 pn.1.1 pn.1.2 1)
      else
        let dist := edge_cost diredist diagdist pn.2
        let original := (pyGet st.2 e.1.1 e.1.2).getD 0
        let olddist := (pyGet st.2 pn.1.1 pn.1.2).getD 0
        (track', pySet st.2 pn.1.1 pn.1.2 (assign_step dist original olddist)))
      st) st

/-- The next cluster: every pixel of the reviewed lists, first
occurrence order, without duplicates. -/
def newCluster (reviewed : List ((Int × Int) × List ((Int × Int) × Bool))) :
    List (Int × Int) :=
  reviewed.foldl (fun cl e =>
    e.2.foldl (fun cl pn => if pn.1 ∈ cl then cl else cl ++ [pn.1]) cl) []

/-- The while-cluster loop; the fuel argument only bounds the rounds and
is chosen larger than the pixel count at the call site. -/
def growCluster (fuel : Nat) (distnav diredist diagdist : ℚ)
    (close river : Grid Int) (st : Grid Int × Grid ℚ)
    (cluster : List (Int × Int)) : Grid Int × Grid ℚ :=
  match fuel with
  | 0 => st
  | fuel + 1 =>
    match cluster with
    | [] => st
    | _ =>
      let reviewed := buildReviewed distnav river st.1 st.2 cluster
      let st' := applyAssign close diredist diagdist reviewed st
      growCluster fuel distnav diredist diagdist close river st' (newCluster reviewed)

/-- The body of the double scan loop: a pixel not yet tracked and marked
close to settlements (-1) seeds a cluster with travel value 1 and grows
it. -/
def processPixel (fuel : Nat) (distnav diredist diagdist : ℚ)
    (close river : Grid Int) (st : Grid Int × Grid ℚ) (rc : Int × Int) :
    Grid Int × Grid ℚ :=
  let tv := pyGet st.1 rc.1 rc.2
  if (match tv with | some t => t != -2 | none => false) &&
     (pyGet close rc.1 rc.2 == some (-1)) then
    let travel' := pySet st.2 rc.1 rc.2 1
    let track' := pySet st.1 rc.1 rc.2 (-2)
    growCluster fuel distnav diredist diagdist close river (track', travel') [rc]
  else st

/-- grow_distance_rivers: track starts as a copy of the river raster,
and the scan runs over rows 0..rows-1 and columns 0..cols-1 as passed by
the caller. -/
def grow_distance_rivers (rows cols : Nat) (distnav diredist diagdist : ℚ)
    (close river : Grid Int) (travel : Grid ℚ) : Grid ℚ :=
  let track := river
  let fuel := river.length * (river.headD []).length + 2
  let pts := (List.range rows).flatMap
    (fun r => (List.range cols).map (fun (c : Nat) => ((r : Int), (c : Int))))
  (pts.foldl (processPixel fuel distnav diredist diagdist close river)
    (track, travel)).2

/-- The call site in create_proximity_raster_from_pixels (HF_spatial.py
lines 1199-1200): the row and column counts passed to the engine are
YSize - 1 and XSize - 1, one less than the raster dimensions. -/
def grow_from_caller (YSize XSize : Nat) (distnav diredist diagdist : ℚ)
    (close river : Grid Int) (travel : Grid ℚ) : Grid ℚ :=
  grow_distance_rivers (YSize - 1) (XSize - 1) distnav diredist diagdist
    close river travel

/-- Concrete 3 x 3 input: the single close-to-settlement pixel sits at
(0, 0) on a two-pixel river [(0,0), (0,1)]. -/
def closeEx1 : Grid Int := [[-1, 0, 0], [0, 0, 0], [0, 0, 0]]

def riverEx1 : Grid Int := [[1, 1, 0], [0, 0, 0], [0, 0, 0]]

def travelEx1 : Grid ℚ := [[-1, -1, 0], [0, 0, 0], [0, 0, 0]]

/-- Concrete 3 x 3 input: the single close-to-settlement pixel and river
pixel (0, 0) sits on the top border, and a second river pixel (2, 0)
sits on the bottom border, with no river path between them. -/
def closeEx2 : Grid Int := [[-1, 0, 0], [0, 0, 0], [0, 0, 0]]

def riverEx2 : Grid Int := [[1, 0, 0], [0, 0, 0], [1, 0, 0]]

def travelEx2 : Grid ℚ := [[-1, 0, 0], [0, 0, 0], [-1, 0, 0]]

/-- Concrete 2 x 2 input for the border scan gap: the single
close-to-settlement pixel sits at (1, 1), the last row and column. -/
def closeEx3 : Grid Int := [[0, 0], [0, -1]]

def riverEx3 : Grid Int := [[0, 0], [0, 0]]

def travelEx3 : Grid ℚ := [[0, 0], [0, 0]]

/-- Concrete 2 x 2 input: the single close-to-settlement pixel sits at
(0, 0), inside the scanned region, with no river pixels at all. -/
def closeEx4 : Grid Int := [[-1, 0], [0, 0]]

/-! # Theorems -/

/-- C1 counterexample.  Cell sizes dx = 6, dy = 8 give diredist
(6 + 8) / 2 = 7 and diagdist sqrt(36 + 64) = 10.  On the 3 x 3 grid with
the single source at (0, 0), of assigned distance 1, and one unvisited
river neighbour at (0, 1) that is not a source, the engine assigns that
neighbour the direct edge cost 7 alone, not the claimed frontier
distance plus edge cost 1 + 7 = 8; relaxation cannot explain the value
since only one proposal is ever made for the pixel. -/
theorem C1_counterexample :
    pyGet (grow_from_caller 3 3 100 7 10 closeEx1 riverEx1 travelEx1) 0 0 = some 1 ∧
    pyGet (grow_from_caller 3 3 100 7 10 closeEx1 riverEx1 travelEx1) 0 1 = some 7 ∧
    pyGet closeEx1 0 1 = some 0 ∧
    pyGet riverEx1 0 1 = some 1 ∧
    pyGet travelEx1 0 1 = some (-1) ∧
    (1 : ℚ) + 7 = 8 ∧
    some (7 : ℚ) ≠ some (8 : ℚ) := by
  with_unfolding_all decide

/-- C2 counterexample.  In the GHS_BUILT_scores bin table
((0,10) score 0, (10,25) score 6, (25,100) score 10), the boundary value
10 scores 0 because the source tests closed intervals in listed order,
whereas the claimed half-open reading [lo, hi) puts 10 in the interval
naming it as lo, which would score 6. -/
theorem C2_counterexample :
    scores_from_bins GHS_BUILT_scores_bins 10 = 0 ∧ ((0 : ℚ) ≠ 6) := by
  decide

/-- C3 counterexample.  For variants A (year 2000, scoring sA) and B
(year 2010, scoring sB) registered in that order and requested year
2005, both are distance 5 from the request; the selection loop keeps B,
the latest-registered variant, not the claimed earliest-registered A,
and the scoring method used is sA, the first-registered variant's, not
the selected variant's sB. -/
theorem C3_counterexample :
    closest_variant [⟨"A", 2000, "sA"⟩, ⟨"B", 2010, "sB"⟩] 2005
      = (some ⟨"B", 2010, "sB"⟩, 2010) ∧
    (Variant.mk "B" 2010 "sB" ≠ Variant.mk "A" 2000 "sA") ∧
    multitemporal_scoring [⟨"A", 2000, "sA"⟩, ⟨"B", 2010, "sB"⟩] = some "sA" ∧
    ("sA" ≠ "sB") := by
  decide

/-- C4: an unrecognized scoring method is not surfaced as a fatal
configuration error; both dispatch chains fall to a print-only branch
and the PREPARING constructor completes its run with that branch, so the
pipeline continues rather than stopping at startup. -/
theorem C4_unknown_method_continues :
    preparing_dispatch "bogus_scores" = PrepAction.notFound ∧
    scoring_dispatch "bogus_scores" = ScoreFunc.notFound ∧
    PREPARING_run "bogus_scores" false = PrepOutcome.completed PrepAction.notFound ∧
    PREPARING_run "bogus_scores" true = PrepOutcome.skipped := by
  decide

/-- C5 counterexample.  Scoring the raster [1,3,5,7,9] and then the
raster [2,6,10,14,18] (threshold 1, nodata -1) in one process reuses
the bins of the first raster for the second raster: the module-global
memo makes the derivation happen once per process, not once per raster
as claimed, and the bins the second raster would derive from its own
values differ. -/
theorem C5_counterexample :
    scoring_session [[1, 3, 5, 7, 9], [2, 6, 10, 14, 18]] 1 (-1)
      = [get_bins [1, 3, 5, 7, 9] 1 (-1), get_bins [1, 3, 5, 7, 9] 1 (-1)] ∧
    get_bins [1, 3, 5, 7, 9] 1 (-1) ≠ get_bins [2, 6, 10, 14, 18] 1 (-1) := by
  with_unfolding_all decide

/-- C6 counterexample.  Combining two one-row scored datasets with
nodata -9999, the first masked at pixel 0 and the second masked at
pixel 1, yields a masked result at both pixels: numpy binary ufuncs on
masked arrays take the union of the masks, so a pixel masked in one
input is masked in the output even where another input is valid,
contradicting the claimed exclusion semantics that would give
[5, 3]. -/
theorem C6_counterexample :
    combineRasters [([-9999, 3], -9999), ([5, -9999], -9999)] = some [none, none] ∧
    combineRasters [([-9999, 3], -9999), ([5, -9999], -9999)]
      ≠ some [some 5, some 3] := by
  decide

/-- C7 counterexample.  With the combine target already present in the
filesystem and one dataset to combine, combineRasters performs its work
again (it has no existence check), contradicting the claim that the
second combine invocation is a no-op. -/
theorem C7_counterexample :
    (combine_stage [("t", (1 : ℚ))] "t" 1 ["a"]).2 = true ∧
    (combine_stage [("t", (1 : ℚ))] "t" 1 ["a"]).2 ≠ false := by
  decide

/-- C8 counterexample.  On a 2 x 2 raster whose single source pixel
(1, 1) has no river neighbours, the engine as invoked (scan bounds
YSize - 1 and XSize - 1) never visits the last row or column, so the
source keeps its initial value 0 instead of the claimed distance 1. -/
theorem C8_counterexample :
    grow_from_caller 2 2 100 7 10 closeEx3 riverEx3 travelEx3 = [[0, 0], [0, 0]] ∧
    pyGet (grow_from_caller 2 2 100 7 10 closeEx3 riverEx3 travelEx3) 1 1 = some 0 ∧
    pyGet closeEx3 1 1 = some (-1) ∧
    ((0 : ℚ) ≠ 1) := by
  decide

/-- Helper: a freshly written target exists. -/
theorem isfile_fwrite (fs : List (String × α)) (t : String) (c : α) :
    isfile (fwrite fs t c) t = true := by
  simp [isfile, fwrite, List.any_append]

/-- Helper: rewriting the same target twice equals writing it once. -/
theorem fwrite_fwrite (fs : List (String × α)) (t : String) (c c' : α) :
    fwrite (fwrite fs t c) t c' = fwrite fs t c' := by
  simp [fwrite, List.filter_append, List.filter_filter]

/-- C7 amended: a second prepare or score invocation with the target
already produced performs no work and leaves the filesystem unchanged;
a second combine invocation rewrites the same target (leaving the
filesystem unchanged when the recomputed content is the same) but, with
at least one dataset, performs the combination work again. -/
theorem C7_amended (fs : List (String × α)) (t : String) (c : α) (ls : List String) :
    preparing_stage (preparing_stage fs t c).1 t c = ((preparing_stage fs t c).1, false) ∧
    scoring_stage (scoring_stage fs t c).1 t c = ((scoring_stage fs t c).1, false) ∧
    combine_stage (combine_stage fs t c ls).1 t c ls
      = ((combine_stage fs t c ls).1, !ls.isEmpty) := by
  refine ⟨?_, ?_, ?_⟩
  · by_cases h : isfile fs t
    · simp [preparing_stage, h]
    · simp [preparing_stage, h, isfile_fwrite]
  · by_cases h : isfile fs t
    · simp [scoring_stage, h]
    · simp [scoring_stage, h, isfile_fwrite]
  · by_cases h : ls.isEmpty
    · simp [combine_stage, h]
    · simp [combine_stage, h, fwrite_fwrite]

/-- Helper: when no bin interval contains the value, the lookup loop
falls through to 0. -/
theorem scores_lookup_nomatch (bins : List Bin) (v : ℚ)
    (h : ∀ b ∈ bins, bin_matches b v = false) : scores_lookup bins v = 0 := by
  induction bins with
  | nil => rfl
  | cons b rest ih =>
    have hb := h b (List.mem_cons_self b rest)
    simp [scores_lookup, hb]
    exact ih (fun b' hb' => h b' (List.mem_cons_of_mem b hb'))

/-- Helper: the lookup loop returns the first matching bin. -/
theorem scores_lookup_first (pre suf : List Bin) (b : Bin) (v : ℚ)
    (hpre : ∀ b' ∈ pre, bin_matches b' v = false)
    (hb : bin_matches b v = true) :
    scores_lookup (pre ++ b :: suf) v = b.2 := by
  induction pre with
  | nil => simp [scores_lookup, hb]
  | cons p rest ih =>
    have hp := hpre p (List.mem_cons_self p rest)
    simp only [List.cons_append, scores_lookup, hp]
    simp only [Bool.false_eq_true, if_false]
    exact ih (fun b' hb' => hpre b' (List.mem_cons_of_mem p hb'))

/-- C2 amended: intervals are tested closed, [lo, hi], in listed order;
the scorer returns the score of the first listed interval containing the
value (so a boundary shared by two adjacent intervals belongs to the
earlier one, which names it as hi); unmatched values score 0; and the
sentinel 65535 scores 0 regardless of the bin table. -/
theorem C2_amended (bins : List Bin) (v : ℚ) :
    (∀ b : Bin, bin_matches b v = true ↔ (b.1.1 ≤ v ∧ (v : WithTop ℚ) ≤ b.1.2)) ∧
    scores_from_bins bins 65535 = 0 ∧
    ((∀ b ∈ bins, bin_matches b v = false) → scores_from_bins bins v = 0) ∧
    (∀ pre suf (b : Bin), bins = pre ++ b :: suf →
      (∀ b' ∈ pre, bin_matches b' v = false) →
      bin_matches b v = true → v ≠ 65535 →
      scores_from_bins bins v = b.2) := by
  refine ⟨?_, ?_, ?_, ?_⟩
  · intro b
    simp [bin_matches]
  · simp [scores_from_bins]
  · intro h
    by_cases hv : v = 65535
    · simp [scores_from_bins, hv]
    · have : (v == 65535) = false := by simpa using hv
      simp [scores_from_bins, this]
      exact scores_lookup_nomatch bins v h
  · intro pre suf b hsplit hpre hb hv
    have : (v == 65535) = false := by simpa using hv
    simp [scores_from_bins, this, hsplit]
    exact scores_lookup_first pre suf b v hpre hb

/-- C2 amended witness: in the railways bin table, the value 50 lies in
the first listed interval (0, 90) and scores 8. -/
theorem C2_amended_witness :
    (∀ b' ∈ ([] : List Bin), bin_matches b' 50 = false) ∧
    bin_matches (((0 : ℚ), ((90 : ℚ) : WithTop ℚ)), (8 : ℚ)) 50 = true ∧
    (50 : ℚ) ≠ 65535 ∧
    scores_from_bins railways_scores_bins 50 = 8 := by
  refine ⟨by simp, by decide, by decide, ?_⟩
  exact (C2_amended railways_scores_bins 50).2.2.2 []
    [(((90 : ℚ), (⊤ : WithTop ℚ)), (0 : ℚ))]
    (((0 : ℚ), ((90 : ℚ) : WithTop ℚ)), (8 : ℚ))
    (by decide) (by simp) (by decide) (by decide)

/-- C1 amended: the per-neighbour update of the assignment loop.  A
neighbour that is itself a source receives 1.  Otherwise, with d the
frontier pixel's distance and the edge cost diredist for a direct or
diagdist for a diagonal neighbour, a so-far-unassigned neighbour (-1)
receives d + edge cost unless d is the seed value 1, in which case it
receives the edge cost alone; an already-assigned neighbour keeps the
smaller of its distance and d + edge cost. -/
theorem C1_amended (close : Grid Int) (diredist diagdist : ℚ)
    (neigh p : Int × Int) (isdir : Bool) (track : Grid Int) (travel : Grid ℚ)
    (cv : Int) (orig old : ℚ)
    (hc : pyGet close p.1 p.2 = some cv)
    (ho : pyGet travel neigh.1 neigh.2 = some orig)
    (hp : pyGet travel p.1 p.2 = some old) :
    (applyAssign close diredist diagdist [(neigh, [(p, isdir)])] (track, travel)).2
      = pySet travel p.1 p.2
          (if cv = -1 then 1
           else if old = -1 then
             (if orig = 1 then edge_cost diredist diagdist isdir
              else orig + edge_cost diredist diagdist isdir)
           else min old (orig + edge_cost diredist diagdist isdir)) := by
  simp only [applyAssign, List.foldl_cons, List.foldl_nil, hc, ho, hp, Option.getD_some]
  by_cases h1 : cv = -1
  · simp [h1]
  · have hbeq : (some cv == some (-1)) = false := by
      simp [h1]
    simp only [hbeq, Bool.false_eq_true, if_false, assign_step]
    by_cases h2 : old = -1
    · by_cases h3 : orig = 1
      · simp [h1, h2, h3]
      · have hb3 : (orig == 1) = false := by simp [h3]
        simp [h1, h2, h3, hb3]
    · have hb2 : (old == -1) = false := by simp [h2]
      simp only [hb2, Bool.false_eq_true, if_false, h2]
      by_cases h4 : old > orig + edge_cost diredist diagdist isdir
      · have : min old (orig + edge_cost diredist diagdist isdir)
            = orig + edge_cost diredist diagdist isdir := min_eq_right (le_of_lt h4)
        simp [h1, h2, h4, this]
      · have : min old (orig + edge_cost diredist diagdist isdir) = old :=
          min_eq_left (not_lt.mp h4)
        simp [h1, h2, h4, this]

/-- C1 amended witness: a non-source neighbour already holding distance
5, proposed from a frontier pixel of distance 5 across a direct edge of
cost 7, keeps min 5 (5 + 7) = 5. -/
theorem C1_amended_witness :
    pyGet ([[0]] : Grid Int) 0 0 = some 0 ∧
    pyGet ([[5]] : Grid ℚ) 0 0 = some 5 ∧
    (applyAssign [[0]] 7 10 [((0, 0), [((0, 0), true)])] ([[0]], [[5]])).2
      = pySet ([[5]] : Grid ℚ) 0 0
          (if (0 : Int) = -1 then 1
           else if (5 : ℚ) = -1 then
             (if (5 : ℚ) = 1 then edge_cost 7 10 true else 5 + edge_cost 7 10 true)
           else min 5 (5 + edge_cost 7 10 true)) :=
  ⟨by decide, by decide,
   C1_amended [[0]] 7 10 (0, 0) (0, 0) true [[0]] [[5]] 0 5 5
     (by decide) (by decide) (by decide)⟩

/-- Helper: the selection loop returns the last variant whose distance
to the requested year attains the minimum, provided every distance beats
the sentinel closer_year = 1000000. -/
theorem closest_variant_last_min (l : List Variant) (year : Int) :
    l ≠ [] → (∀ d ∈ l, (d.year - year).natAbs < ((1000000 : Int) - year).natAbs) →
    ∃ l1 d l2, l = l1 ++ d :: l2 ∧
      closest_variant l year = (some d, d.year) ∧
      (∀ e ∈ l, (d.year - year).natAbs ≤ (e.year - year).natAbs) ∧
      (∀ e ∈ l2, (d.year - year).natAbs < (e.year - year).natAbs) := by
  induction l using List.reverseRecOn with
  | nil => intro hne _; exact absurd rfl hne
  | append_singleton l x ih =>
    intro _ hdist
    rcases List.eq_nil_or_concat l with hl | _
    · subst hl
      refine ⟨[], x, [], by simp, ?_, ?_, by simp⟩
      · have hx : (x.year - year).natAbs ≤ ((1000000 : Int) - year).natAbs :=
          le_of_lt (hdist x (by simp))
        simp [closest_variant, hx]
      · intro e he
        simp at he
        subst he
        exact le_refl _
    · have hlne : l ≠ [] := by
        rcases l with _ | _
        · rename_i h; rcases h with ⟨_, _, h⟩; exact absurd h (by simp)
        · simp
      obtain ⟨l1, d, l2, hsplit, hcv, hmin, hlast⟩ :=
        ih hlne (fun e he => hdist e (List.mem_append_left _ he))
      have hstep : closest_variant (l ++ [x]) year =
          (if (x.year - year).natAbs ≤ (d.year - year).natAbs
           then (some x, x.year) else (some d, d.year)) := by
        simp only [closest_variant] at hcv ⊢
        rw [List.foldl_append, hcv]
        simp
      by_cases hc : (x.year - year).natAbs ≤ (d.year - year).natAbs
      · refine ⟨l, x, [], by simp, ?_, ?_, by simp⟩
        · simp [hstep, hc]
        · intro e he
          rcases List.mem_append.mp he with he | he
          · exact le_trans hc (hmin e he)
          · simp at he; subst he; exact le_refl _
      · refine ⟨l1, d, l2 ++ [x], by simp [hsplit], ?_, ?_, ?_⟩
        · simp [hstep, hc]
        · intro e he
          rcases List.mem_append.mp he with he | he
          · exact hmin e he
          · simp at he; subst he; exact le_of_lt (not_le.mp hc)
        · intro e he
          rcases List.mem_append.mp he with he | he
          · exact hlast e he
          · simp at he; subst he; exact not_le.mp hc

/-- C3 amended: for a nonempty multitemporal layer (all variant years
within the sentinel distance), the selected variant is the last
registered one among those closest to the requested year — ties break
toward the latest-registered variant, not the earliest — and the scoring
method used is always that of the first-registered variant, whichever
variant was selected. -/
theorem C3_amended (datasets : List Variant) (year : Int)
    (hne : datasets ≠ [])
    (hdist : ∀ d ∈ datasets, (d.year - year).natAbs < ((1000000 : Int) - year).natAbs) :
    (∃ l1 d l2, datasets = l1 ++ d :: l2 ∧
      closest_variant datasets year = (some d, d.year) ∧
      (∀ e ∈ datasets, (d.year - year).natAbs ≤ (e.year - year).natAbs) ∧
      (∀ e ∈ l2, (d.year - year).natAbs < (e.year - year).natAbs)) ∧
    (∀ d0, datasets.head? = some d0 → multitemporal_scoring datasets = some d0.scoring) := by
  refine ⟨closest_variant_last_min datasets year hne hdist, ?_⟩
  intro d0 h0
  simp [multitemporal_scoring, h0]

/-- C3 amended witness: for variants A (2000), B (2010) and requested
year 2005 the conclusion holds, with B the selected split point. -/
theorem C3_amended_witness :
    ([⟨"A", 2000, "sA"⟩, ⟨"B", 2010, "sB"⟩] : List Variant) ≠ [] ∧
    (∀ d ∈ ([⟨"A", 2000, "sA"⟩, ⟨"B", 2010, "sB"⟩] : List Variant),
      (d.year - 2005).natAbs < ((1000000 : Int) - 2005).natAbs) ∧
    ((∃ l1 d l2, ([⟨"A", 2000, "sA"⟩, ⟨"B", 2010, "sB"⟩] : List Variant) = l1 ++ d :: l2 ∧
      closest_variant [⟨"A", 2000, "sA"⟩, ⟨"B", 2010, "sB"⟩] 2005 = (some d, d.year) ∧
      (∀ e ∈ ([⟨"A", 2000, "sA"⟩, ⟨"B", 2010, "sB"⟩] : List Variant),
        (d.year - 2005).natAbs ≤ (e.year - 2005).natAbs) ∧
      (∀ e ∈ l2, (d.year - 2005).natAbs < (e.year - 2005).natAbs)) ∧
    (∀ d0, ([⟨"A", 2000, "sA"⟩, ⟨"B", 2010, "sB"⟩] : List Variant).head? = some d0 →
      multitemporal_scoring [⟨"A", 2000, "sA"⟩, ⟨"B", 2010, "sB"⟩] = some d0.scoring)) :=
  ⟨by decide, by decide,
   C3_amended [⟨"A", 2000, "sA"⟩, ⟨"B", 2010, "sB"⟩] 2005 (by decide) (by decide)⟩

/-- C5 amended: the bins are derived from the filtered (above-threshold,
non-zero, non-nodata) values with quantile cut points at the 0th, 10th,
..., 100th percentiles under midpoint interpolation, labelled 1 to 10 in
ascending order, the last upper bound unbounded; but the derivation runs
once per process, not once per raster: with an empty memo the bins come
from the raster at hand, and with a populated memo every raster, whatever
its values, reuses the stored bins. -/
theorem C5_amended (a r : List ℚ) (th nd : ℚ) (cacheB : List Bin) :
    get_bins a th nd =
      [((np_quantile_midpoint (get_bins_filter a th nd) (0 / 10),
         (np_quantile_midpoint (get_bins_filter a th nd) (1 / 10) : WithTop ℚ)), 1),
       ((np_quantile_midpoint (get_bins_filter a th nd) (1 / 10),
         (np_quantile_midpoint (get_bins_filter a th nd) (2 / 10) : WithTop ℚ)), 2),
       ((np_quantile_midpoint (get_bins_filter a th nd) (2 / 10),
         (np_quantile_midpoint (get_bins_filter a th nd) (3 / 10) : WithTop ℚ)), 3),
       ((np_quantile_midpoint (get_bins_filter a th nd) (3 / 10),
         (np_quantile_midpoint (get_bins_filter a th nd) (4 / 10) : WithTop ℚ)), 4),
       ((np_quantile_midpoint (get_bins_filter a th nd) (4 / 10),
         (np_quantile_midpoint (get_bins_filter a th nd) (5 / 10) : WithTop ℚ)), 5),
       ((np_quantile_midpoint (get_bins_filter a th nd) (5 / 10),
         (np_quantile_midpoint (get_bins_filter a th nd) (6 / 10) : WithTop ℚ)), 6),
       ((np_quantile_midpoint (get_bins_filter a th nd) (6 / 10),
         (np_quantile_midpoint (get_bins_filter a th nd) (7 / 10) : WithTop ℚ)), 7),
       ((np_quantile_midpoint (get_bins_filter a th nd) (7 / 10),
         (np_quantile_midpoint (get_bins_filter a th nd) (8 / 10) : WithTop ℚ)), 8),
       ((np_quantile_midpoint (get_bins_filter a th nd) (8 / 10),
         (np_quantile_midpoint (get_bins_filter a th nd) (9 / 10) : WithTop ℚ)), 9),
       ((np_quantile_midpoint (get_bins_filter a th nd) (9 / 10),
         (⊤ : WithTop ℚ)), 10)] ∧
    bins_for_raster none a th nd = (get_bins a th nd, some (get_bins a th nd)) ∧
    bins_for_raster (some cacheB) r th nd = (cacheB, some cacheB) := by
  refine ⟨?_, rfl, rfl⟩
  with_unfolding_all rfl

/-- Helper: one pixel of a mask-equal row. -/
theorem masked_equal_getElem (l : List ℚ) (nd : ℚ) (i : Nat) (hi : i < l.length) :
    (masked_equal l nd)[i]? = some (if l.getD i 0 == nd then none else some (l.getD i 0)) := by
  simp only [masked_equal, List.getElem?_map, List.getElem?_eq_getElem hi, Option.map_some]
  simp [List.getD_eq_getElem?_getD, List.getElem?_eq_getElem hi]

/-- Helper: a masked pixel poisons the whole left fold of np.maximum. -/
theorem ma_fold_none (rest : List (List ℚ × ℚ)) (i : Nat) :
    rest.foldl (fun o s => ma_max_pixel o
      (if s.1.getD i 0 == s.2 then none else some (s.1.getD i 0))) none = none := by
  induction rest with
  | nil => rfl
  | cons s rest ih =>
    simp only [List.foldl_cons]
    have : ma_max_pixel none
        (if s.1.getD i 0 == s.2 then none else some (s.1.getD i 0)) = none := by
      rcases (if s.1.getD i 0 == s.2 then none else some (s.1.getD i 0)) with _ | w <;> rfl
    rw [this, ih]

/-- Helper: the per-pixel fold of np.maximum over masked values is none
as soon as one dataset is masked at the pixel, and the running maximum
of the values otherwise. -/
theorem ma_fold_spec (rest : List (List ℚ × ℚ)) (i : Nat) (v : ℚ) :
    rest.foldl (fun o s => ma_max_pixel o
      (if s.1.getD i 0 == s.2 then none else some (s.1.getD i 0))) (some v)
      = if ∃ s ∈ rest, s.1.getD i 0 = s.2 then none
        else some ((rest.map (fun s => s.1.getD i 0)).foldl max v) := by
  induction rest generalizing v with
  | nil => simp
  | cons s rest ih =>
    simp only [List.foldl_cons]
    by_cases hm : s.1.getD i 0 = s.2
    · have hb : (s.1.getD i 0 == s.2) = true := by simpa using hm
      rw [if_pos hb]
      have h1 : ma_max_pixel (some v) none = none := rfl
      rw [h1, ma_fold_none,
        if_pos (⟨s, List.mem_cons_self s rest, hm⟩ :
          ∃ s1 ∈ s :: rest, s1.1.getD i 0 = s1.2)]
    · have hb : (s.1.getD i 0 == s.2) = false := by simpa using hm
      rw [if_neg (by simp only [hb]; exact Bool.false_ne_true)]
      have h1 : ma_max_pixel (some v) (some (s.1.getD i 0))
          = some (max v (s.1.getD i 0)) := rfl
      rw [h1, ih]
      by_cases hex : ∃ s1 ∈ rest, s1.1.getD i 0 = s1.2
      · obtain ⟨s1, hs1, hp1⟩ := hex
        rw [if_pos ⟨s1, hs1, hp1⟩,
          if_pos (⟨s1, List.mem_cons_of_mem s hs1, hp1⟩ :
            ∃ s1 ∈ s :: rest, s1.1.getD i 0 = s1.2)]
      · rw [if_neg hex, if_neg ?hnc]
        case hnc =>
          rintro ⟨s1, hs1, hp1⟩
          rcases List.mem_cons.mp hs1 with h | h
          · exact hm (h ▸ hp1)
          · exact hex ⟨s1, h, hp1⟩
        simp [List.foldl_cons]

/-- Helper: pixel i of the fold of np.maximum over masked rows, with all
rows the same width. -/
theorem combine_fold_getElem (rest : List (List ℚ × ℚ)) (acc : List (Option ℚ))
    (i : Nat) (hi : i < acc.length) (hlen : ∀ s ∈ rest, s.1.length = acc.length) :
    (rest.foldl (fun acc s => np_maximum_ma acc (masked_equal s.1 s.2)) acc)[i]?
      = some (rest.foldl (fun o s => ma_max_pixel o
          (if s.1.getD i 0 == s.2 then none else some (s.1.getD i 0)))
          (acc.getD i none)) := by
  induction rest generalizing acc with
  | nil =>
    simp only [List.foldl_nil]
    simp [List.getD_eq_getElem?_getD, List.getElem?_eq_getElem hi]
  | cons s rest ih =>
    simp only [List.foldl_cons]
    have hsl : s.1.length = acc.length := hlen s (List.mem_cons_self s rest)
    have hlen' : (np_maximum_ma acc (masked_equal s.1 s.2)).length = acc.length := by
      simp [np_maximum_ma, List.length_zipWith, masked_equal, hsl]
    have hi' : i < (np_maximum_ma acc (masked_equal s.1 s.2)).length := by
      rw [hlen']; exact hi
    rw [ih (np_maximum_ma acc (masked_equal s.1 s.2)) hi'
      (fun e he => by rw [hlen']; exact hlen e (List.mem_cons_of_mem s he))]
    have hpix : (np_maximum_ma acc (masked_equal s.1 s.2)).getD i none
        = ma_max_pixel (acc.getD i none)
            (if s.1.getD i 0 == s.2 then none else some (s.1.getD i 0)) := by
      have h1 : (np_maximum_ma acc (masked_equal s.1 s.2))[i]?
          = some (ma_max_pixel (acc.getD i none)
              (if s.1.getD i 0 == s.2 then none else some (s.1.getD i 0))) := by
        simp only [np_maximum_ma, List.getElem?_zipWith]
        rw [masked_equal_getElem s.1 s.2 i (by rw [hsl]; exact hi)]
        rw [List.getElem?_eq_getElem hi]
        simp [List.getD_eq_getElem?_getD, List.getElem?_eq_getElem hi]
      simp [List.getD_eq_getElem?_getD, h1]
    rw [hpix]

/-- C6 amended: combineRasters takes the pixelwise maximum with the
masks united: pixel i of the combined pressure map is masked when the
first dataset or any later dataset is nodata there, and otherwise holds
the maximum of all the datasets' values; a pixel masked in one input but
valid in another is masked in the output, not replaced by the valid
value. -/
theorem C6_amended (first : List ℚ) (nd0 : ℚ) (rest : List (List ℚ × ℚ)) (i : Nat)
    (hi : i < first.length)
    (hlen : ∀ s ∈ rest, s.1.length = first.length) :
    ∃ out, combineRasters ((first, nd0) :: rest) = some out ∧
      out[i]? = some (
        if first.getD i 0 = nd0 ∨ ∃ s ∈ rest, s.1.getD i 0 = s.2 then none
        else some ((rest.map (fun s => s.1.getD i 0)).foldl max (first.getD i 0))) := by
  refine ⟨_, rfl, ?_⟩
  have hm : i < (masked_equal first nd0).length := by
    simp [masked_equal]; exact hi
  rw [combine_fold_getElem rest (masked_equal first nd0) i hm
    (fun s hs => by simp [masked_equal]; exact hlen s hs)]
  have hacc : (masked_equal first nd0).getD i none
      = if first.getD i 0 == nd0 then none else some (first.getD i 0) := by
    simp [List.getD_eq_getElem?_getD, masked_equal_getElem first nd0 i hi]
  rw [hacc]
  by_cases h0 : first.getD i 0 = nd0
  · have hb : (first.getD i 0 == nd0) = true := by simpa using h0
    rw [if_pos hb, ma_fold_none, if_pos (Or.inl h0)]
  · have hb : (first.getD i 0 == nd0) = false := by simpa using h0
    rw [if_neg (by simp only [hb]; exact Bool.false_ne_true), ma_fold_spec]
    by_cases hex : ∃ s ∈ rest, s.1.getD i 0 = s.2
    · rw [if_pos hex, if_pos (Or.inr hex)]
    · rw [if_neg hex, if_neg ?hnc]
      case hnc => rintro (h | h); exact h0 h; exact hex h

/-- C6 amended witness: rasters [3, 4] and [5, 2] with nodata -9999 are
everywhere valid at pixel 0, whose combined value is max 3 5. -/
theorem C6_amended_witness :
    0 < ([3, 4] : List ℚ).length ∧
    (∀ s ∈ ([([5, 2], -9999)] : List (List ℚ × ℚ)), s.1.length = ([3, 4] : List ℚ).length) ∧
    (∃ out, combineRasters [((([3, 4] : List ℚ)), (-9999 : ℚ)), ([5, 2], -9999)] = some out ∧
      out[0]? = some (
        if ([3, 4] : List ℚ).getD 0 0 = -9999 ∨
           ∃ s ∈ ([([5, 2], -9999)] : List (List ℚ × ℚ)), s.1.getD 0 0 = s.2 then none
        else some ((([([5, 2], -9999)] : List (List ℚ × ℚ)).map
          (fun s => s.1.getD 0 0)).foldl max (([3, 4] : List ℚ).getD 0 0)))) :=
  ⟨by decide, by decide,
   C6_amended [3, 4] (-9999) [([5, 2], -9999)] 0 (by decide) (by decide)⟩

/-- Helper: the three properties of exp_function, for any parameter set
with a nonnegative exponential coefficient and positive cutoff. -/
theorem exp_function_spec (p : ExpParams) (u : String)
    (hu : u = "meters" ∨ u = "hab/pixel" ∨ u = "kilometers")
    (hms : 0 ≤ p.max_score_exp) (hmd : 0 < p.max_dist) :
    exp_function p u 0 = some p.max_score ∧
    (∀ v : ℝ, v > p.max_dist → exp_function p u v = some 0) ∧
    (∀ d1 d2 : ℝ, 0 < d1 → d1 ≤ d2 → d2 ≤ p.max_dist →
      ∃ y1 y2, exp_function p u d1 = some y1 ∧ exp_function p u d2 = some y2 ∧
        y2 ≤ y1) := by
  refine ⟨?_, ?_, ?_⟩
  · unfold exp_function
    rw [if_neg (not_lt.mpr hmd.le), if_pos rfl]
  · intro v hv
    unfold exp_function
    rw [if_pos hv]
  · intro d1 d2 h1 h12 h2m
    have hn1 : ¬ d1 > p.max_dist := not_lt.mpr (le_trans h12 h2m)
    have hn2 : ¬ d2 > p.max_dist := not_lt.mpr h2m
    have hz1 : d1 ≠ 0 := ne_of_gt h1
    have hz2 : d2 ≠ 0 := ne_of_gt (lt_of_lt_of_le h1 h12)
    rcases hu with hu | hu | hu
    · refine ⟨p.max_score_exp * Real.exp (-(d1 / 1000)) + p.min_score_exp,
              p.max_score_exp * Real.exp (-(d2 / 1000)) + p.min_score_exp, ?_, ?_, ?_⟩
      · unfold exp_function
        rw [if_neg hn1, if_neg hz1, if_pos (Or.inl hu)]
      · unfold exp_function
        rw [if_neg hn2, if_neg hz2, if_pos (Or.inl hu)]
      · have he : Real.exp (-(d2 / 1000)) ≤ Real.exp (-(d1 / 1000)) :=
          Real.exp_le_exp.mpr (by linarith)
        have := mul_le_mul_of_nonneg_left he hms
        linarith
    · refine ⟨p.max_score_exp * Real.exp (-(d1 / 1000)) + p.min_score_exp,
              p.max_score_exp * Real.exp (-(d2 / 1000)) + p.min_score_exp, ?_, ?_, ?_⟩
      · unfold exp_function
        rw [if_neg hn1, if_neg hz1, if_pos (Or.inr hu)]
      · unfold exp_function
        rw [if_neg hn2, if_neg hz2, if_pos (Or.inr hu)]
      · have he : Real.exp (-(d2 / 1000)) ≤ Real.exp (-(d1 / 1000)) :=
          Real.exp_le_exp.mpr (by linarith)
        have := mul_le_mul_of_nonneg_left he hms
        linarith
    · have hne1 : ¬ (u = "meters" ∨ u = "hab/pixel") := by
        subst hu
        rintro (h | h) <;> exact absurd h (by decide)
      refine ⟨p.max_score_exp * Real.exp (-d1) + p.min_score_exp,
              p.max_score_exp * Real.exp (-d2) + p.min_score_exp, ?_, ?_, ?_⟩
      · unfold exp_function
        rw [if_neg hn1, if_neg hz1, if_neg hne1, if_pos hu]
      · unfold exp_function
        rw [if_neg hn2, if_neg hz2, if_neg hne1, if_pos hu]
      · have he : Real.exp (-d2) ≤ Real.exp (-d1) :=
          Real.exp_le_exp.mpr (by linarith)
        have := mul_le_mul_of_nonneg_left he hms
        linarith

/-- Helper: every exp-type entry of the GHF template has a nonnegative
exponential coefficient and a positive maximum distance. -/
theorem GHF_exp_entries_params :
    ∀ p ∈ GHF_exp_entries, 0 ≤ p.max_score_exp ∧ 0 < p.max_dist := by
  intro p hp
  fin_cases hp <;> constructor <;> norm_num

/-- C9: for every exp-type scoring-method entry of the GHF template and
every layer unit the function handles (meters, hab/pixel, kilometers),
exp_function at distance 0 returns max_score, at any distance beyond
max_dist returns 0, and on 0 < d1 <= d2 <= max_dist is monotonically
non-increasing. -/
theorem C9_exp_function :
    ∀ p ∈ GHF_exp_entries, ∀ u ∈ ["meters", "hab/pixel", "kilometers"],
      exp_function p u 0 = some p.max_score ∧
      (∀ v : ℝ, v > p.max_dist → exp_function p u v = some 0) ∧
      (∀ d1 d2 : ℝ, 0 < d1 → d1 ≤ d2 → d2 ≤ p.max_dist →
        ∃ y1 y2, exp_function p u d1 = some y1 ∧ exp_function p u d2 = some y2 ∧
          y2 ≤ y1) := by
  intro p hp u hu
  have hparams := GHF_exp_entries_params p hp
  have hu' : u = "meters" ∨ u = "hab/pixel" ∨ u = "kilometers" := by
    simpa using hu
  exact exp_function_spec p u hu' hparams.1 hparams.2

/-- C9 witness: the road_scores_l1 entry with unit meters. -/
theorem C9_exp_function_witness :
    (⟨8, 4, 0, 15000⟩ : ExpParams) ∈ GHF_exp_entries ∧
    "meters" ∈ ["meters", "hab/pixel", "kilometers"] ∧
    (exp_function ⟨8, 4, 0, 15000⟩ "meters" 0
        = some (ExpParams.mk 8 4 0 15000).max_score ∧
      (∀ v : ℝ, v > (ExpParams.mk 8 4 0 15000).max_dist →
        exp_function ⟨8, 4, 0, 15000⟩ "meters" v = some 0) ∧
      (∀ d1 d2 : ℝ, 0 < d1 → d1 ≤ d2 → d2 ≤ (ExpParams.mk 8 4 0 15000).max_dist →
        ∃ y1 y2, exp_function ⟨8, 4, 0, 15000⟩ "meters" d1 = some y1 ∧
          exp_function ⟨8, 4, 0, 15000⟩ "meters" d2 = some y2 ∧ y2 ≤ y1)) :=
  ⟨List.mem_cons_self _ _, List.mem_cons_self _ _,
   C9_exp_function _ (List.mem_cons_self _ _) _ (List.mem_cons_self _ _)⟩

/-- Helper: a natural index below the length resolves to itself. -/
theorem pyIdx_coe (len i : Nat) (h : i < len) : pyIdx len ↑i = some i := by
  unfold pyIdx
  rw [if_pos (Int.natCast_nonneg i), if_pos (by exact_mod_cast h)]
  rw [Int.toNat_natCast]

/-- Helper: reading a rectangular grid at in-range natural coordinates
reads the row. -/
theorem pyGet_rect (g : Grid α) (H W i j : Nat) (hg : RectGrid g H W)
    (hi : i < H) (hj : j < W) :
    ∃ row, g.get? i = some row ∧ row.length = W ∧ pyGet g ↑i ↑j = row.get? j := by
  obtain ⟨hlen, hrows⟩ := hg
  have hi' : i < g.length := by rw [hlen]; exact hi
  obtain ⟨row, hrow⟩ : ∃ row, g.get? i = some row := by
    rw [List.get?_eq_getElem?, List.getElem?_eq_getElem hi']
    exact ⟨_, rfl⟩
  have hrl : row.length = W := hrows row (List.get?_mem hrow)
  refine ⟨row, hrow, hrl, ?_⟩
  simp only [pyGet, pyIdx_coe g.length i hi', hrow,
    pyIdx_coe row.length j (by rw [hrl]; exact hj)]

/-- Helper: reading a rectangular grid at in-range natural coordinates
succeeds. -/
theorem pyGet_rect_some (g : Grid α) (H W i j : Nat) (hg : RectGrid g H W)
    (hi : i < H) (hj : j < W) : ∃ v, pyGet g ↑i ↑j = some v := by
  obtain ⟨row, _, hrl, hpg⟩ := pyGet_rect g H W i j hg hi hj
  rw [hpg, List.get?_eq_getElem?, List.getElem?_eq_getElem (by rw [hrl]; exact hj)]
  exact ⟨_, rfl⟩

/-- Helper: writing a rectangular grid at in-range natural coordinates
updates the row. -/
theorem pySet_rect_eq (g : Grid α) (H W i j : Nat) (v : α) (hg : RectGrid g H W)
    (hi : i < H) (hj : j < W) :
    ∃ row, g.get? i = some row ∧ row.length = W ∧
      pySet g ↑i ↑j v = g.set i (row.set j v) := by
  obtain ⟨hlen, hrows⟩ := hg
  have hi' : i < g.length := by rw [hlen]; exact hi
  obtain ⟨row, hrow⟩ : ∃ row, g.get? i = some row := by
    rw [List.get?_eq_getElem?, List.getElem?_eq_getElem hi']
    exact ⟨_, rfl⟩
  have hrl : row.length = W := hrows row (List.get?_mem hrow)
  refine ⟨row, hrow, hrl, ?_⟩
  simp only [pySet, pyIdx_coe g.length i hi', hrow,
    pyIdx_coe row.length j (by rw [hrl]; exact hj)]

/-- Helper: a write at in-range natural coordinates keeps the grid
rectangular. -/
theorem RectGrid_pySet (g : Grid α) (H W i j : Nat) (v : α) (hg : RectGrid g H W)
    (hi : i < H) (hj : j < W) : RectGrid (pySet g ↑i ↑j v) H W := by
  obtain ⟨row, hrow, hrl, hset⟩ := pySet_rect_eq g H W i j v hg hi hj
  rw [hset]
  constructor
  · rw [List.length_set]; exact hg.1
  · intro r hr
    rcases List.mem_or_eq_of_mem_set hr with h | h
    · exact hg.2 r h
    · rw [h, List.length_set]; exact hrl

/-- Helper: reading back the cell just written. -/
theorem pyGet_pySet_self (g : Grid α) (H W i j : Nat) (v : α) (hg : RectGrid g H W)
    (hi : i < H) (hj : j < W) : pyGet (pySet g ↑i ↑j v) ↑i ↑j = some v := by
  obtain ⟨row, hrow, hrl, hset⟩ := pySet_rect_eq g H W i j v hg hi hj
  rw [hset]
  have hg' : RectGrid (g.set i (row.set j v)) H W := by
    rw [← hset]; exact RectGrid_pySet g H W i j v hg hi hj
  obtain ⟨row', hrow', hrl', hpg'⟩ := pyGet_rect _ H W i j hg' hi hj
  have hrowval : row' = row.set j v := by
    have : (g.set i (row.set j v)).get? i = some (row.set j v) := by
      rw [List.get?_eq_getElem?]
      exact List.getElem?_set_self (by rw [hg.1]; exact hi)
    rw [this] at hrow'
    exact (Option.some_inj.mp hrow').symm
  rw [hpg', hrowval, List.get?_eq_getElem?]
  exact List.getElem?_set_self (by rw [hrl]; exact hj)

/-- Helper: an exhausted cluster ends the growth loop. -/
theorem growCluster_nil (fuel : Nat) (dn dd dg : ℚ) (close river : Grid Int)
    (st : Grid Int × Grid ℚ) :
    growCluster fuel dn dd dg close river st [] = st := by
  cases fuel <;> rfl

/-- Helper: one round of the growth loop on a nonempty cluster. -/
theorem growCluster_succ (fuel : Nat) (dn dd dg : ℚ) (close river : Grid Int)
    (st : Grid Int × Grid ℚ) (cluster : List (Int × Int)) (hne : cluster ≠ []) :
    growCluster (fuel + 1) dn dd dg close river st cluster
      = growCluster fuel dn dd dg close river
          (applyAssign close dd dg (buildReviewed dn river st.1 st.2 cluster) st)
          (newCluster (buildReviewed dn river st.1 st.2 cluster)) := by
  cases cluster with
  | nil => exact absurd rfl hne
  | cons a t => rfl

/-- Helper: a cluster seeded at a pixel with no river neighbours stops
after one round, leaving the state unchanged. -/
theorem growCluster_source (N : Nat) (dn dd dg : ℚ) (close river : Grid Int)
    (track1 : Grid Int) (travel1 : Grid ℚ) (r c : Nat)
    (htl : pyGet travel1 ↑r ↑c = some 1)
    (hnr : ∀ n ∈ neighbs ↑r ↑c, pyGet river n.1.1 n.1.2 ≠ some 1) :
    growCluster (N + 2) dn dd dg close river (track1, travel1) [(↑r, ↑c)]
      = (track1, travel1) := by
  have hfil : (neighbs ↑r ↑c).filter (fun n => neighbOK river track1 n.1) = [] := by
    rw [List.filter_eq_nil_iff]
    intro n hn
    unfold neighbOK
    cases hrv : pyGet river n.1.1 n.1.2 with
    | none => simp
    | some rv =>
      cases htv : pyGet track1 n.1.1 n.1.2 with
      | none => simp
      | some tv =>
        have hrvne : rv ≠ 1 := by
          intro e
          subst e
          exact (hnr n hn) hrv
        simp [hrvne]
  rw [growCluster_succ _ dn dd dg close river _ _ (by simp)]
  by_cases hdn : (1 : ℚ) < dn
  · have hrev : buildReviewed dn river track1 travel1 [(↑r, ↑c)]
        = [(((r : Int), (c : Int)), [])] := by
      simp [buildReviewed, travelLt, htl, hdn, hfil]
    rw [hrev]
    have ha : applyAssign close dd dg [(((r : Int), (c : Int)), [])] (track1, travel1)
        = (track1, travel1) := rfl
    have hn : newCluster [(((r : Int), (c : Int)), [])] = [] := rfl
    rw [ha, hn, growCluster_nil]
  · have hrev : buildReviewed dn river track1 travel1 [(↑r, ↑c)] = [] := by
      simp [buildReviewed, travelLt, htl, hdn]
    rw [hrev]
    have ha : applyAssign close dd dg [] (track1, travel1) = (track1, travel1) := rfl
    have hn : newCluster ([] : List ((Int × Int) × List ((Int × Int) × Bool))) = [] := rfl
    rw [ha, hn, growCluster_nil]

/-- Helper: a scan pixel that is not marked close to settlements is
skipped whatever the state. -/
theorem processPixel_skip (fuel : Nat) (dn dd dg : ℚ) (close river : Grid Int)
    (st : Grid Int × Grid ℚ) (rc : Int × Int)
    (h : pyGet close rc.1 rc.2 ≠ some (-1)) :
    processPixel fuel dn dd dg close river st rc = st := by
  have hb : (pyGet close rc.1 rc.2 == some (-1)) = false := beq_eq_false_iff_ne.mpr h
  unfold processPixel
  rw [hb]
  simp

/-- Helper: a scan pixel already tracked as -2 is skipped. -/
theorem processPixel_tracked (fuel : Nat) (dn dd dg : ℚ) (close river : Grid Int)
    (track : Grid Int) (travel : Grid ℚ) (rc : Int × Int)
    (h : pyGet track rc.1 rc.2 = some (-2)) :
    processPixel fuel dn dd dg close river (track, travel) rc = (track, travel) := by
  unfold processPixel
  rw [h]
  simp

/-- Helper: the seeding step at the unique source pixel. -/
theorem processPixel_source (N : Nat) (dn dd dg : ℚ) (close river : Grid Int)
    (travel : Grid ℚ) (H W r c : Nat)
    (hgr : RectGrid river H W) (hgt : RectGrid travel H W)
    (hrH : r < H) (hcW : c < W)
    (hsrc : pyGet close ↑r ↑c = some (-1))
    (htrk : pyGet river ↑r ↑c ≠ some (-2))
    (hnr : ∀ n ∈ neighbs ↑r ↑c, pyGet river n.1.1 n.1.2 ≠ some 1) :
    processPixel (N + 2) dn dd dg close river (river, travel) (↑r, ↑c)
      = (pySet river ↑r ↑c (-2), pySet travel ↑r ↑c 1) := by
  obtain ⟨t, ht⟩ := pyGet_rect_some river H W r c hgr hrH hcW
  have ht2 : t ≠ -2 := by
    intro e
    subst e
    exact htrk ht
  have hcond : (t != -2) = true := bne_iff_ne.mpr ht2
  unfold processPixel
  rw [ht, hsrc]
  simp only [hcond]
  rw [if_pos (by decide)]
  exact growCluster_source N dn dd dg close river _ _ r c
    (pyGet_pySet_self travel H W r c 1 hgt hrH hcW) hnr

/-- Helper: a run of skippable-or-source pixels preserves the
post-seeding state. -/
theorem foldl_processPixel_preserve (fuel : Nat) (dn dd dg : ℚ)
    (close river : Grid Int) (src : Int × Int) (st1 : Grid Int × Grid ℚ)
    (hstep1 : processPixel fuel dn dd dg close river st1 src = st1)
    (pts : List (Int × Int))
    (h : ∀ p ∈ pts, p = src ∨ pyGet close p.1 p.2 ≠ some (-1)) :
    pts.foldl (processPixel fuel dn dd dg close river) st1 = st1 := by
  induction pts with
  | nil => rfl
  | cons p t ih =>
    rw [List.foldl_cons]
    rcases h p (List.mem_cons_self p t) with hp | hp
    · rw [hp, hstep1]
      exact ih (fun q hq => h q (List.mem_cons_of_mem p hq))
    · rw [processPixel_skip fuel dn dd dg close river _ p hp]
      exact ih (fun q hq => h q (List.mem_cons_of_mem p hq))

/-- Helper: the whole scan from the initial state seeds exactly at the
source and otherwise changes nothing. -/
theorem foldl_processPixel_main (fuel : Nat) (dn dd dg : ℚ)
    (close river : Grid Int) (src : Int × Int) (st0 st1 : Grid Int × Grid ℚ)
    (hstep : processPixel fuel dn dd dg close river st0 src = st1)
    (hstep1 : processPixel fuel dn dd dg close river st1 src = st1)
    (pts : List (Int × Int))
    (h : ∀ p ∈ pts, p = src ∨ pyGet close p.1 p.2 ≠ some (-1)) :
    pts.foldl (processPixel fuel dn dd dg close river) st0
      = if src ∈ pts then st1 else st0 := by
  induction pts with
  | nil => simp
  | cons p t ih =>
    rw [List.foldl_cons]
    by_cases hp : p = src
    · subst hp
      rw [hstep]
      rw [foldl_processPixel_preserve fuel dn dd dg close river p st1 hstep1 t
        (fun q hq => h q (List.mem_cons_of_mem p hq))]
      rw [if_pos (List.mem_cons_self p t)]
    · have hskip : pyGet close p.1 p.2 ≠ some (-1) :=
        (h p (List.mem_cons_self p t)).resolve_left hp
      rw [processPixel_skip fuel dn dd dg close river _ p hskip]
      rw [ih (fun q hq => h q (List.mem_cons_of_mem p hq))]
      by_cases hmem : src ∈ t
      · rw [if_pos hmem, if_pos (List.mem_cons_of_mem p hmem)]
      · rw [if_neg hmem, if_neg ?hnc]
        case hnc =>
          intro hcontra
          rcases List.mem_cons.mp hcontra with h1 | h1
          · exact hp h1.symm
          · exact hmem h1

/-- Helper: membership in the scan point list. -/
theorem scan_pts_mem (rows cols : Nat) (p : Int × Int) :
    p ∈ (List.range rows).flatMap
        (fun a => (List.range cols).map (fun (b : Nat) => ((a : Int), (b : Int))))
      ↔ ∃ a b : Nat, a < rows ∧ b < cols ∧ p = (↑a, ↑b) := by
  constructor
  · intro hp
    obtain ⟨a, ha, hpa⟩ := List.mem_flatMap.mp hp
    obtain ⟨b, hb, hpb⟩ := List.mem_map.mp hpa
    exact ⟨a, b, List.mem_range.mp ha, List.mem_range.mp hb, hpb.symm⟩
  · rintro ⟨a, b, ha, hb, rfl⟩
    exact List.mem_flatMap.mpr ⟨a, List.mem_range.mpr ha,
      List.mem_map.mpr ⟨b, List.mem_range.mpr hb, rfl⟩⟩

/-- C8 amended: in the engine as invoked by
create_proximity_raster_from_pixels (scan bounds YSize - 1 and
XSize - 1), a grid whose unique close-to-settlement pixel lies inside
the scanned region and has no river neighbours propagates nothing: the
source pixel ends with distance 1 and every other pixel keeps its
initial value. -/
theorem C8_amended (H W r c : Nat) (distnav diredist diagdist : ℚ)
    (close river : Grid Int) (travel : Grid ℚ)
    (hgr : RectGrid river H W) (hgt : RectGrid travel H W)
    (hr : r < H - 1) (hc : c < W - 1)
    (hsrc : pyGet close ↑r ↑c = some (-1))
    (huniq : ∀ i : Nat, i < H → ∀ j : Nat, j < W → pyGet close ↑i ↑j = some (-1) → i = r ∧ j = c)
    (htrk : pyGet river ↑r ↑c ≠ some (-2))
    (hnr : ∀ n ∈ neighbs ↑r ↑c, pyGet river n.1.1 n.1.2 ≠ some 1) :
    grow_from_caller H W distnav diredist diagdist close river travel
      = pySet travel ↑r ↑c 1 := by
  have hrH : r < H := lt_of_lt_of_le hr (Nat.sub_le H 1)
  have hcW : c < W := lt_of_lt_of_le hc (Nat.sub_le W 1)
  have hstep := processPixel_source (river.length * (river.headD []).length)
    distnav diredist diagdist close river travel H W r c hgr hgt hrH hcW
    hsrc htrk hnr
  have htrk1 : pyGet (pySet river ↑r ↑c (-2)) ↑r ↑c = some (-2) :=
    pyGet_pySet_self river H W r c (-2) hgr hrH hcW
  have hstep1 := processPixel_tracked
    (river.length * (river.headD []).length + 2) distnav diredist diagdist
    close river (pySet river ↑r ↑c (-2)) (pySet travel ↑r ↑c 1) (↑r, ↑c) htrk1
  have hall : ∀ p ∈ (List.range (H - 1)).flatMap
      (fun a => (List.range (W - 1)).map (fun (b : Nat) => ((a : Int), (b : Int)))),
      p = ((r : Int), (c : Int)) ∨ pyGet close p.1 p.2 ≠ some (-1) := by
    intro p hp
    obtain ⟨a, b, ha, hb, hpe⟩ := (scan_pts_mem (H - 1) (W - 1) p).mp hp
    subst hpe
    by_cases hcl : pyGet close ↑a ↑b = some (-1)
    · obtain ⟨har, hbc⟩ := huniq a (lt_of_lt_of_le ha (Nat.sub_le H 1))
        b (lt_of_lt_of_le hb (Nat.sub_le W 1)) hcl
      subst har
      subst hbc
      exact Or.inl rfl
    · exact Or.inr hcl
  have hmem : ((r : Int), (c : Int)) ∈ (List.range (H - 1)).flatMap
      (fun a => (List.range (W - 1)).map (fun (b : Nat) => ((a : Int), (b : Int)))) :=
    (scan_pts_mem (H - 1) (W - 1) _).mpr ⟨r, c, hr, hc, rfl⟩
  simp only [grow_from_caller, grow_distance_rivers]
  rw [foldl_processPixel_main (river.length * (river.headD []).length + 2)
    distnav diredist diagdist close river ((r : Int), (c : Int))
    (river, travel) (pySet river ↑r ↑c (-2), pySet travel ↑r ↑c 1)
    hstep hstep1 _ hall]
  rw [if_pos hmem]

/-- C8 amended witness: on the 2 x 2 grid whose unique source (0, 0)
lies inside the scanned region and has no river pixels at all, the
engine only sets that pixel to 1. -/
theorem C8_amended_witness :
    RectGrid riverEx3 2 2 ∧ RectGrid travelEx3 2 2 ∧
    0 < 2 - 1 ∧
    pyGet closeEx4 0 0 = some (-1) ∧
    (∀ i : Nat, i < 2 → ∀ j : Nat, j < 2 → pyGet closeEx4 ↑i ↑j = some (-1) → i = 0 ∧ j = 0) ∧
    pyGet riverEx3 0 0 ≠ some (-2) ∧
    (∀ n ∈ neighbs 0 0, pyGet riverEx3 n.1.1 n.1.2 ≠ some 1) ∧
    grow_from_caller 2 2 100 7 10 closeEx4 riverEx3 travelEx3
      = pySet travelEx3 0 0 1 :=
  ⟨by decide, by decide, by decide, by decide, by decide, by decide, by decide,
   C8_amended 2 2 0 0 100 7 10 closeEx4 riverEx3 travelEx3
     (by decide) (by decide) (by decide) (by decide) (by decide)
     (by decide) (by decide) (by decide)⟩

/-- C10: neighbour lookups at row or column 0 produce index -1, which
Python resolves to the last row or column (only indices past the upper
bound are rejected); on the 3 x 3 grid whose only source is the river
pixel (0, 0) on the top border, the river pixel (2, 0) on the bottom
border, unreachable inside the grid, receives the finite distance 1
through the wrap-around lookup. -/
theorem C10_wraparound :
    pyIdx 3 (-1) = some 2 ∧
    pyIdx 3 3 = none ∧
    grow_from_caller 3 3 100 7 10 closeEx2 riverEx2 travelEx2
      = [[1, 0, 0], [0, 0, 0], [7, 0, 0]] ∧
    pyGet travelEx2 2 0 = some (-1) ∧
    (0 : ℚ) < 7 ∧
    pyGet closeEx2 0 0 = some (-1) ∧
    pyGet closeEx2 2 0 = some 0 := by
  decide

end HF
